import Mathlib

set_option maxRecDepth 8192

/-!
Verification of the two extractor modules of this repository,
`parsers/parse_url.py` and `parsers/parse_json.py`, against their
natural-language specification.

The extractors are shallowly embedded: each Python `run(unfurl, node)`
function becomes a Lean function from a node to the list of children it
enqueues (in emission order) together with an optional uncaught exception.
The parts of the Python standard library the extractors call
(`urllib.parse.urlparse`, `urllib.parse.parse_qs`, `json.loads`, `str.split`,
`int`) are embedded as executable Lean functions following CPython 3.10
semantics, restricted where noted in the individual doc comments.

Modelling notes, applying throughout:
* Presentation-only arguments of `unfurl.add_to_queue` (`hover`, `label`,
  `incoming_edge_config`, `extra_options`) are constants or formatting of the
  retained fields and are omitted from the embedded child records.
* Python exception *messages* are modelled as descriptive Lean strings; only
  the presence and kind of an uncaught exception matters.
* Unicode-specific stdlib behaviour (NFKC checks in `_checknetloc`,
  non-ASCII lowercasing, non-ASCII decimal digits in `int`, UTF-8 decoding of
  multi-byte percent-escapes) is modelled at ASCII fidelity; every concrete
  input appearing in a theorem below is ASCII.
* Python's recursion limit (relevant only for pathologically nested JSON) is
  not modelled.
* Two stdlib details changed across CPython releases: scheme recognition
  follows CPython ≤ 3.10 (no leading-letter requirement; that check arrived
  in 3.11), and the `.port` property follows the ASCII-digit validation of
  current CPython (backported as a security fix). Neither choice affects any
  concrete input appearing below.
-/

/-- Python values as they occur in this program: node/child values are
strings, ints, bools, `None`, floats (kept as their source literal, opaque),
lists, or string-keyed dicts (insertion-ordered association lists). -/
inductive PyValue where
  | str (s : String)
  | int (n : Int)
  | bool (b : Bool)
  | noneV
  | float (lit : String)
  | list (xs : List PyValue)
  | dict (fields : List (String × PyValue))
deriving Repr

/-- A node offered to an extractor: its `data_type` tag, its `value`, and its
`node_id` (used as `parent_id` of emitted children). -/
structure Node where
  data_type : String
  value : PyValue
  node_id : Nat
deriving Repr

/-- One child descriptor as passed to `unfurl.add_to_queue`, restricted to the
semantically relevant fields `data_type`, `key`, `value`, `parent_id`. -/
structure Child where
  data_type : String
  key : Option PyValue
  value : PyValue
  parent_id : Nat
deriving Repr

/-- A child before the parent link is attached: in both extractors every
`add_to_queue` call passes `parent_id=node.node_id`, so the emission logic is
factored to produce parentless records to which the node id is then attached
uniformly. -/
structure Emit where
  data_type : String
  key : Option PyValue
  value : PyValue
deriving Repr

/-- Attach a parent id to an emitted child record. -/
def Emit.withParent (e : Emit) (pid : Nat) : Child :=
  ⟨e.data_type, e.key, e.value, pid⟩

/-! ## Python string primitives

All string manipulation is routed through structurally recursive list
operations so that every definition evaluates by kernel reduction. -/

/-- Python `s.split(c)` for a one-character separator (also the semantics of
Lean `String.splitOn` there): the empty string yields `[""]`, `n` separator
occurrences yield `n+1` pieces. -/
def splitOnCharL (c : Char) : List Char → List (List Char)
  | [] => [[]]
  | x :: xs =>
    if x = c then [] :: splitOnCharL c xs
    else
      match splitOnCharL c xs with
      | r :: rs => (x :: r) :: rs
      | [] => [[x]]

/-- Python `s.split(c)` on strings. -/
def pySplitChar (c : Char) (s : String) : List String :=
  (splitOnCharL c s.data).map String.mk

/-- Whether `s` contains the character `c` (Python `c in s`). -/
def strHasChar (s : String) (c : Char) : Bool :=
  s.data.any (· = c)

/-- Python `s.lower()` at ASCII fidelity. -/
def strLower (s : String) : String :=
  String.mk (s.data.map Char.toLower)

/-- Python `s.replace('+', ' ')`. -/
def plusToSpace (s : String) : String :=
  String.mk (s.data.map fun c => if c = '+' then ' ' else c)

/-- Numeric value of a list of ASCII digits. -/
def digitsToNat (ds : List Char) : Nat :=
  ds.foldl (fun acc d => acc * 10 + (d.toNat - 48)) 0

/-- Python `s.partition(c)`: split at the first occurrence of `c`, returning
(head, found-flag, tail). When `c` is absent, Python returns `(s, '', '')`. -/
def pypartition (s : String) (c : Char) : String × Bool × String :=
  match s.data.findIdx? (· = c) with
  | Option.none => (s, false, "")
  | Option.some i => (s.take i, true, s.drop (i + 1))

/-- Index of the last occurrence of `c` in `s`, if any. -/
def rfindChar? (s : String) (c : Char) : Option Nat :=
  match s.data.reverse.findIdx? (· = c) with
  | Option.none => Option.none
  | Option.some j => Option.some (s.length - 1 - j)

/-- Python `s.rpartition(c)`: split at the last occurrence of `c`, returning
(head, found-flag, tail); `('', '', s)` when `c` is absent. -/
def pyrpartition (s : String) (c : Char) : String × Bool × String :=
  match rfindChar? s c with
  | Option.none => ("", false, s)
  | Option.some i => (s.take i, true, s.drop (i + 1))

/-! ## urllib.parse: urlsplit / urlparse (CPython 3.10) -/

/-- Result of `urllib.parse.urlsplit`. -/
structure SplitResult where
  scheme : String
  netloc : String
  path : String
  query : String
  fragment : String
deriving Repr, DecidableEq

/-- Result of `urllib.parse.urlparse` (urlsplit plus params split from path). -/
structure ParseResult where
  scheme : String
  netloc : String
  path : String
  params : String
  query : String
  fragment : String
deriving Repr, DecidableEq

/-- Characters legal in a URL scheme, `urllib.parse.scheme_chars`. -/
def scheme_chars : List Char :=
  "abcdefghijklmnopqrstuvwxyzABCDEFGHIJKLMNOPQRSTUVWXYZ0123456789+-.".data

/-- CPython removes tab, CR and LF from the URL before splitting
(`_UNSAFE_URL_BYTES_TO_REMOVE`). -/
def removeTabsCrLf (s : String) : String :=
  String.mk (s.data.filter fun c => ¬ (c = '\t' ∨ c = '\r' ∨ c = '\n'))

/-- CPython `_splitnetloc(url, start)`: the netloc is `url[start:delim]` where
`delim` is the first index at or after `start` of a char in `'/?#'` (or the end
of the string); the remainder `url[delim:]` is returned alongside. -/
def splitnetloc (url : String) (start : Nat) : String × String :=
  let rest := url.drop start
  match rest.data.findIdx? (fun c => c = '/' ∨ c = '?' ∨ c = '#') with
  | Option.none => (rest, "")
  | Option.some i => (rest.take i, rest.drop i)

/-- CPython 3.10 `urllib.parse.urlsplit` with `allow_fragments=True`: strip
tab/CR/LF; recognise a scheme when the text before the first `:` (at index
`> 0`) is all scheme chars, lowercasing it; take the netloc after a leading
`//` up to the first `/?#`, rejecting unbalanced square brackets with
`ValueError: Invalid IPv6 URL`; then split off the fragment at the first `#`
and the query at the first `?`. The `_checknetloc` NFKC check only concerns
non-ASCII input and is not modelled. -/
def urlsplit (url0 : String) : Except String SplitResult := do
  let url1 := removeTabsCrLf url0
  let (scheme, url2) :=
    match url1.data.findIdx? (· = ':') with
    | Option.some i =>
      if i > 0 ∧ (url1.take i).data.all (scheme_chars.contains ·) then
        (strLower (url1.take i), url1.drop (i + 1))
      else ("", url1)
    | Option.none => ("", url1)
  let (netloc, url3) ←
    if url2.take 2 = "//" then
      let (nl, rest) := splitnetloc url2 2
      if (strHasChar nl '[' ∧ ¬ strHasChar nl ']') ∨
         (strHasChar nl ']' ∧ ¬ strHasChar nl '[') then
        Except.error "ValueError: Invalid IPv6 URL"
      else pure (nl, rest)
    else pure ("", url2)
  let (url4, fragment) :=
    match url3.data.findIdx? (· = '#') with
    | Option.some i => (url3.take i, url3.drop (i + 1))
    | Option.none => (url3, "")
  let (url5, query) :=
    match url4.data.findIdx? (· = '?') with
    | Option.some i => (url4.take i, url4.drop (i + 1))
    | Option.none => (url4, "")
  pure ⟨scheme, netloc, url5, query, fragment⟩

/-- Schemes for which `urlparse` splits params from the last path segment,
`urllib.parse.uses_params` (note the empty scheme is a member). -/
def uses_params : List String :=
  ["", "ftp", "hdl", "prospero", "http", "imap", "https", "shttp", "rtsp",
   "rtspu", "sip", "sips", "mms", "sftp", "tel"]

/-- CPython `urllib.parse._splitparams`: cut the path at the first `;` that
occurs at or after the last `/` (or the first `;` at all when there is no
`/`). -/
def splitparams (url : String) : String × String :=
  if strHasChar url '/' then
    let lastSlash := match rfindChar? url '/' with
      | Option.some i => i
      | Option.none => 0
    match (url.drop lastSlash).data.findIdx? (· = ';') with
    | Option.none => (url, "")
    | Option.some j => (url.take (lastSlash + j), url.drop (lastSlash + j + 1))
  else
    match url.data.findIdx? (· = ';') with
    | Option.none => (url, "")
    | Option.some i => (url.take i, url.drop (i + 1))

/-- CPython 3.10 `urllib.parse.urlparse`: urlsplit, then split params off the
path when the scheme uses params and the path contains `;`. -/
def urlparse (url : String) : Except String ParseResult := do
  let r ← urlsplit url
  if uses_params.contains r.scheme ∧ strHasChar r.path ';' then
    let (p, params) := splitparams r.path
    pure ⟨r.scheme, r.netloc, p, params, r.query, r.fragment⟩
  else
    pure ⟨r.scheme, r.netloc, r.path, "", r.query, r.fragment⟩

/-! ## Derived netloc properties (`hostname`, `username`, `password`, `port`) -/

/-- CPython `SplitResult._hostinfo` restricted to the host/port split: drop
everything up to the last `@`; inside `[...]` the host is the bracketed text
and the port follows a `:` after the `]`; otherwise split at the first `:`.
An empty port string counts as no port. -/
def hostinfoRaw (netloc : String) : String × Option String :=
  let (_, _, hostinfo) := pyrpartition netloc '@'
  let (_, haveBr, bracketed) := pypartition hostinfo '['
  if haveBr then
    let (h, _, afterBr) := pypartition bracketed ']'
    let (_, _, port) := pypartition afterBr ':'
    (h, if port = "" then Option.none else Option.some port)
  else
    let (h, _, port) := pypartition hostinfo ':'
    (h, if port = "" then Option.none else Option.some port)

/-- CPython `.hostname` property: `None` for an empty host, else the host
lowercased up to a `%` (an IPv6 zone id is preserved as-is). -/
def pyHostname (netloc : String) : Option String :=
  let raw := (hostinfoRaw netloc).1
  if raw = "" then Option.none
  else
    let (h, found, zone) := pypartition raw '%'
    Option.some (if found then strLower h ++ "%" ++ zone else strLower h)

/-- CPython `SplitResult._userinfo`: `(None, None)` without an `@`; otherwise
the username is the userinfo up to the first `:` (possibly empty) and the
password follows it (`None` when there is no `:`). -/
def pyUserinfo (netloc : String) : Option String × Option String :=
  let (userinfo, haveAt, _) := pyrpartition netloc '@'
  if haveAt then
    let (u, haveColon, pw) := pypartition userinfo ':'
    (Option.some u, if haveColon then Option.some pw else Option.none)
  else (Option.none, Option.none)

/-- CPython `.username` property. -/
def pyUsername (netloc : String) : Option String := (pyUserinfo netloc).1

/-- CPython `.password` property. -/
def pyPassword (netloc : String) : Option String := (pyUserinfo netloc).2

/-- CPython `.port` property: no port string gives `None`; otherwise the port
string must consist of (ASCII) digits and fit in `0..65535`, else a
`ValueError` is raised (modelled as `Except.error`). (The digit check is
the validation CPython applies before `int(port, 10)`.) -/
def pyPort (netloc : String) : Except String (Option Int) :=
  match (hostinfoRaw netloc).2 with
  | Option.none => Except.ok Option.none
  | Option.some pstr =>
    if pstr.data ≠ [] ∧ pstr.data.all Char.isDigit then
      let n : Nat := digitsToNat pstr.data
      if n ≤ 65535 then Except.ok (Option.some (Int.ofNat n))
      else Except.error "ValueError: Port out of range 0-65535"
    else Except.error "ValueError: Port could not be cast to integer value"

/-! ## urllib.parse: unquote / parse_qsl / parse_qs (CPython 3.10) -/

/-- Value of an ASCII hex digit. -/
def hexDigitVal? (c : Char) : Option Nat :=
  if '0' ≤ c ∧ c ≤ '9' then Option.some (c.toNat - 48)
  else if 'a' ≤ c ∧ c ≤ 'f' then Option.some (c.toNat - 87)
  else if 'A' ≤ c ∧ c ≤ 'F' then Option.some (c.toNat - 55)
  else Option.none

/-- Percent-decoding core of `urllib.parse.unquote`: a `%` followed by two hex
digits becomes the coded byte, an ill-formed escape is kept literally.
Modelled at single-byte fidelity (exact for ASCII escapes; CPython assembles
consecutive escaped bytes and UTF-8-decodes them). -/
def unquoteChars : List Char → List Char
  | '%' :: a :: b :: rest =>
    match hexDigitVal? a, hexDigitVal? b with
    | Option.some x, Option.some y => Char.ofNat (16 * x + y) :: unquoteChars rest
    | _, _ => '%' :: unquoteChars (a :: b :: rest)
  | c :: rest => c :: unquoteChars rest
  | [] => []

/-- `urllib.parse.unquote` on a string. -/
def pyUnquote (s : String) : String := String.mk (unquoteChars s.data)

/-- The `+` to space then percent-decode treatment `parse_qsl` applies to each
name and value. -/
def unquotePlus (s : String) : String :=
  pyUnquote (plusToSpace s)

/-- CPython 3.10 `urllib.parse.parse_qsl` with default arguments: split on
`&`, skip empty chunks, skip chunks without `=`, skip pairs whose value is
empty (`keep_blank_values=False`), and apply `+`/percent decoding to both
name and value. -/
def parse_qsl (qs : String) : List (String × String) :=
  (pySplitChar '&' qs).filterMap fun chunk =>
    if chunk = "" then Option.none
    else
      let (n, found, v) := pypartition chunk '='
      if ¬ found then Option.none
      else if v = "" then Option.none
      else Option.some (unquotePlus n, unquotePlus v)

/-- CPython `urllib.parse.parse_qs`: group the `parse_qsl` pairs into an
insertion-ordered dict mapping each name to the list of its values, in order
of first occurrence of the name. -/
def parse_qs (qs : String) : List (String × List String) :=
  (parse_qsl qs).foldl
    (fun acc kv =>
      if acc.any (fun e => e.1 = kv.1) then
        acc.map fun e => if e.1 = kv.1 then (e.1, e.2 ++ [kv.2]) else e
      else acc ++ [(kv.1, [kv.2])])
    []

/-! ## json.loads (CPython `json` module, default arguments) -/

/-- JSON whitespace skipped by the decoder (` \t\n\r`). -/
def skipJsonWs : List Char → List Char
  | c :: cs => if c = ' ' ∨ c = '\t' ∨ c = '\n' ∨ c = '\r' then skipJsonWs cs else c :: cs
  | [] => []

/-- Insert a parsed member into an object under Python dict semantics: a
repeated key keeps its first position but takes the latest value. -/
def dictInsert (fields : List (String × PyValue)) (k : String) (v : PyValue) :
    List (String × PyValue) :=
  if fields.any (fun e => e.1 = k) then
    fields.map fun e => if e.1 = k then (k, v) else e
  else fields ++ [(k, v)]

/-- JSON string body after the opening quote: plain chars up to the closing
quote, rejecting unescaped control chars (`strict=True`), with the standard
escapes; `\uXXXX` becomes the coded scalar value (surrogate-pair combining is
not modelled; no concrete input below uses `\u` escapes). -/
def parseJsonString (cs : List Char) : Except String (String × List Char) :=
  (go cs []).map fun r => (String.mk r.1.reverse, r.2)
where
  go : List Char → List Char → Except String (List Char × List Char)
  | [], _ => Except.error "JSONDecodeError: Unterminated string"
  | '\\' :: esc, acc =>
    match esc with
    | '"' :: rest => go rest ('"' :: acc)
    | '\\' :: rest => go rest ('\\' :: acc)
    | '/' :: rest => go rest ('/' :: acc)
    | 'b' :: rest => go rest ('\x08' :: acc)
    | 'f' :: rest => go rest ('\x0c' :: acc)
    | 'n' :: rest => go rest ('\n' :: acc)
    | 'r' :: rest => go rest ('\r' :: acc)
    | 't' :: rest => go rest ('\t' :: acc)
    | 'u' :: a :: b :: c :: d :: rest =>
      match hexDigitVal? a, hexDigitVal? b, hexDigitVal? c, hexDigitVal? d with
      | Option.some w, Option.some x, Option.some y, Option.some z =>
        go rest (Char.ofNat (((w * 16 + x) * 16 + y) * 16 + z) :: acc)
      | _, _, _, _ => Except.error "JSONDecodeError: Invalid x5cuXXXX escape"
    | _ => Except.error "JSONDecodeError: Invalid x5c escape"
  | '"' :: rest, acc => Except.ok (acc, rest)
  | c :: rest, acc =>
    if c.toNat < 32 then Except.error "JSONDecodeError: Invalid control character"
    else go rest (c :: acc)

/-- JSON number at the head of the input, per the scanner regex
`(-?(?:0|[1-9]\d*))(\.\d+)?([eE][-+]?\d+)?`: the integer part is `0` alone or
a nonzero-leading digit run; fraction and exponent are consumed only when
well-formed. A number without fraction and exponent is a Python `int`; any
other is a float, kept as its literal text. -/
def parseJsonNumber (cs : List Char) : Except String (PyValue × List Char) :=
  let (neg, cs1) := match cs with
    | '-' :: rest => (true, rest)
    | _ => (false, cs)
  match cs1 with
  | c :: _ =>
    if ¬ c.isDigit then Except.error "JSONDecodeError: Expecting value"
    else
      let (intDs, cs2) :=
        if c = '0' then ([c], cs1.drop 1)
        else (cs1.takeWhile Char.isDigit, cs1.dropWhile Char.isDigit)
      let (fracDs, cs3) :=
        match cs2 with
        | '.' :: d :: _ =>
          if d.isDigit then
            ('.' :: (cs2.drop 1).takeWhile Char.isDigit,
             (cs2.drop 1).dropWhile Char.isDigit)
          else ([], cs2)
        | _ => ([], cs2)
      let (expDs, cs4) :=
        match cs3 with
        | e :: tail =>
          if e = 'e' ∨ e = 'E' then
            let (sgn, tail2) := match tail with
              | s :: t2 => if s = '+' ∨ s = '-' then ([s], t2) else ([], tail)
              | [] => ([], tail)
            match tail2 with
            | d2 :: _ =>
              if d2.isDigit then
                (e :: sgn ++ tail2.takeWhile Char.isDigit,
                 tail2.dropWhile Char.isDigit)
              else ([], cs3)
            | [] => ([], cs3)
          else ([], cs3)
        | [] => ([], cs3)
      if fracDs.isEmpty ∧ expDs.isEmpty then
        let n : Int := Int.ofNat (digitsToNat intDs)
        Except.ok (PyValue.int (if neg then -n else n), cs4)
      else
        let lit := String.mk ((if neg then ['-'] else []) ++ intDs ++ fracDs ++ expDs)
        Except.ok (PyValue.float lit, cs4)
  | [] => Except.error "JSONDecodeError: Expecting value"

mutual

/-- JSON value at the head of the input (leading whitespace allowed): object,
array, string, number, `true`/`false`/`null`, or the CPython-accepted
constants `NaN`, `Infinity`, `-Infinity` (kept as opaque floats). The fuel
only bounds nesting; `jsonLoads` supplies more than the input length. -/
def parseJsonValue (fuel : Nat) (cs0 : List Char) :
    Except String (PyValue × List Char) :=
  match fuel with
  | 0 => Except.error "JSONDecodeError: fuel exhausted"
  | Nat.succ f =>
    match skipJsonWs cs0 with
    | [] => Except.error "JSONDecodeError: Expecting value"
    | '{' :: rest => parseJsonMembers f rest [] true
    | '[' :: rest => parseJsonElements f rest [] true
    | '"' :: rest =>
      (parseJsonString rest).map fun r => (PyValue.str r.1, r.2)
    | 't' :: 'r' :: 'u' :: 'e' :: rest => Except.ok (PyValue.bool true, rest)
    | 'f' :: 'a' :: 'l' :: 's' :: 'e' :: rest => Except.ok (PyValue.bool false, rest)
    | 'n' :: 'u' :: 'l' :: 'l' :: rest => Except.ok (PyValue.noneV, rest)
    | 'N' :: 'a' :: 'N' :: rest => Except.ok (PyValue.float "NaN", rest)
    | 'I' :: 'n' :: 'f' :: 'i' :: 'n' :: 'i' :: 't' :: 'y' :: rest =>
      Except.ok (PyValue.float "Infinity", rest)
    | '-' :: 'I' :: 'n' :: 'f' :: 'i' :: 'n' :: 'i' :: 't' :: 'y' :: rest =>
      Except.ok (PyValue.float "-Infinity", rest)
    | cs => parseJsonNumber cs

/-- Object members after the opening `{` (or after a `,`): `first` is true
only before any member has been parsed, when a closing `}` gives the empty
object. -/
def parseJsonMembers (fuel : Nat) (cs0 : List Char)
    (acc : List (String × PyValue)) (first : Bool) :
    Except String (PyValue × List Char) :=
  match fuel with
  | 0 => Except.error "JSONDecodeError: fuel exhausted"
  | Nat.succ f =>
    match skipJsonWs cs0 with
    | '}' :: rest =>
      if first then Except.ok (PyValue.dict acc, rest)
      else Except.error "JSONDecodeError: Expecting property name"
    | '"' :: rest => do
      let (k, rest2) ← parseJsonString rest
      match skipJsonWs rest2 with
      | ':' :: rest3 => do
        let (v, rest4) ← parseJsonValue f rest3
        let acc2 := dictInsert acc k v
        match skipJsonWs rest4 with
        | ',' :: rest5 => parseJsonObjectTail f rest5 acc2
        | '}' :: rest5 => Except.ok (PyValue.dict acc2, rest5)
        | _ => Except.error "JSONDecodeError: Expecting comma delimiter"
      | _ => Except.error "JSONDecodeError: Expecting colon delimiter"
    | _ => Except.error "JSONDecodeError: Expecting property name"

/-- Object members after a `,`: a property name is now mandatory. -/
def parseJsonObjectTail (fuel : Nat) (cs0 : List Char)
    (acc : List (String × PyValue)) : Except String (PyValue × List Char) :=
  match fuel with
  | 0 => Except.error "JSONDecodeError: fuel exhausted"
  | Nat.succ f => parseJsonMembers f cs0 acc false

/-- Array elements after the opening `[` (or after a `,`): `first` is true
only before any element has been parsed, when a closing `]` gives the empty
array. -/
def parseJsonElements (fuel : Nat) (cs0 : List Char)
    (acc : List PyValue) (first : Bool) : Except String (PyValue × List Char) :=
  match fuel with
  | 0 => Except.error "JSONDecodeError: fuel exhausted"
  | Nat.succ f =>
    match skipJsonWs cs0 with
    | ']' :: rest =>
      if first then Except.ok (PyValue.list acc.reverse, rest)
      else Except.error "JSONDecodeError: Expecting value"
    | cs => do
      let (v, rest) ← parseJsonValue f cs
      match skipJsonWs rest with
      | ',' :: rest2 => parseJsonElements f rest2 (v :: acc) false
      | ']' :: rest2 => Except.ok (PyValue.list (v :: acc).reverse, rest2)
      | _ => Except.error "JSONDecodeError: Expecting comma delimiter"

end

/-- CPython `json.loads` on a string: parse one JSON value, then require only
whitespace to remain (`Extra data` otherwise). -/
def jsonLoads (s : String) : Except String PyValue := do
  let (v, rest) ← parseJsonValue (s.length + 2) s.data
  if (skipJsonWs rest).isEmpty then pure v
  else Except.error "JSONDecodeError: Extra data"

/-! ## Python str() (for the f-string in the authority branch) -/

/-- An ASCII single-quote character as a string. -/
def squote : String := String.singleton (Char.ofNat 39)

mutual

/-- Python `repr` restricted to the value shapes of this program (strings are
shown single-quoted without escaping, floats as their stored literal; both are
approximations documented at the top of the file and unexercised by any
concrete input below). -/
def pyRepr : PyValue → String
  | PyValue.str s => squote ++ s ++ squote
  | PyValue.int n => toString n
  | PyValue.bool b => if b then "True" else "False"
  | PyValue.noneV => "None"
  | PyValue.float lit => lit
  | PyValue.list xs => "[" ++ pyReprList xs ++ "]"
  | PyValue.dict fs => "\x7b" ++ pyReprFields fs ++ "\x7d"

/-- Comma-joined reprs of list elements. -/
def pyReprList : List PyValue → String
  | [] => ""
  | [x] => pyRepr x
  | x :: y :: xs => pyRepr x ++ ", " ++ pyReprList (y :: xs)

/-- Comma-joined `'key': value` reprs of dict fields. -/
def pyReprFields : List (String × PyValue) → String
  | [] => ""
  | [kv] => squote ++ kv.1 ++ squote ++ ": " ++ pyRepr kv.2
  | kv :: kw :: fs => squote ++ kv.1 ++ squote ++ ": " ++ pyRepr kv.2 ++ ", " ++ pyReprFields (kw :: fs)

end

/-- Python `str()` as used by the f-string `f'https://x7bnode.valuex7d'`:
identity on strings, `repr`-style otherwise. -/
def pyStr : PyValue → String
  | PyValue.str s => s
  | v => pyRepr v

/-! ## The ad-hoc delimited-pair grammars of the fallback branch -/

/-- One `sep`-separated piece is pair-shaped when it splits at `=` into
exactly a nonempty key and a nonempty value (so it contains exactly one `=`;
it cannot contain the separator, having been produced by splitting on it). -/
def pairPieceOk (piece : String) : Bool :=
  match pySplitChar '=' piece with
  | [k, v] => decide (k ≠ "" ∧ v ≠ "")
  | _ => false

/-- Full match of the source regex
`((?P<key>[^S=]+)=(?P<value>[^S=]+)S)+(?P<last_key>[^S=]+)=(?P<last_value>[^S=]+)`
(with `S` the separator, `|` or `&`): because keys and values exclude both the
separator and `=`, the separators of any full match are exactly the literal
separator occurrences, so the regex matches the whole string iff splitting on
the separator yields at least two pieces and every piece is pair-shaped. -/
def delimitedPairsMatch (sep : Char) (s : String) : Bool :=
  let pieces := pySplitChar sep s
  decide (2 ≤ pieces.length) && pieces.all pairPieceOk

/-- The emission loop over the separator-split pieces: each piece is split on
`=` and unpacked into `key, value`; a piece that does not split into exactly
two parts raises `ValueError` (unpacking), aborting the loop with the children
emitted so far kept (they were already enqueued). -/
def emitPairPieces : List String → List Emit × Option String
  | [] => ([], Option.none)
  | piece :: rest =>
    match pySplitChar '=' piece with
    | [k, v] =>
      let r := emitPairPieces rest
      (⟨"url.query.pair", Option.some (PyValue.str k), PyValue.str v⟩ :: r.1, r.2)
    | _ => ([], Option.some "ValueError: values to unpack")

/-! ## parsers/parse_url.py: run -/

/-- Value of an optional string as a Python object (`None` when absent). -/
def optStrVal : Option String → PyValue
  | Option.some s => PyValue.str s
  | Option.none => PyValue.noneV

/-- The embedded-URL recognition of the fallback branch: `urlparse` inside a
bare `try`, recognised when both the netloc and the path are non-empty; a
parse exception is swallowed (`except: pass`). -/
def urlFallbackHit (s : String) : Bool :=
  match urlparse s with
  | Except.ok p => decide (p.netloc ≠ "" ∧ p.path ≠ "")
  | Except.error _ => false

/-- The `url` branch of `parse_url.run`: parse the value; when the netloc is
non-empty, emit a `url.scheme` child if the scheme is non-empty; a
`url.hostname` child if the netloc equals the `.hostname` property, else a
`url.authority` child with the raw netloc; and `url.path`, `url.query`,
`url.fragment` children for the non-empty components, in that order.
A non-string value makes `urlparse` raise. -/
def urlBranchCore (v : PyValue) : List Emit × Option String :=
  match v with
  | PyValue.str s =>
    match urlparse s with
    | Except.error e => ([], Option.some e)
    | Except.ok p =>
      if p.netloc ≠ "" then
        ((if p.scheme ≠ "" then
            [⟨"url.scheme", Option.some (PyValue.str "Scheme"), PyValue.str p.scheme⟩]
          else [])
         ++ (if Option.some p.netloc = pyHostname p.netloc then
              [⟨"url.hostname", Option.none, optStrVal (pyHostname p.netloc)⟩]
            else
              [⟨"url.authority", Option.none, PyValue.str p.netloc⟩])
         ++ (if p.path ≠ "" then [⟨"url.path", Option.none, PyValue.str p.path⟩] else [])
         ++ (if p.query ≠ "" then [⟨"url.query", Option.none, PyValue.str p.query⟩] else [])
         ++ (if p.fragment ≠ "" then [⟨"url.fragment", Option.none, PyValue.str p.fragment⟩] else []),
         Option.none)
      else ([], Option.none)
  | _ => ([], Option.some "TypeError: urlparse expects str")

/-- The `url.path` branch of `parse_url.run`: split on `/`; when more than two
parts result, emit one `url.path.segment` child per non-empty part, keyed by
its `enumerate` index. A non-string value makes `.split` raise. -/
def pathBranchCore (v : PyValue) : List Emit × Option String :=
  match v with
  | PyValue.str s =>
    let path_segments := pySplitChar '/' s
    if 2 < path_segments.length then
      (path_segments.enum.filterMap fun pr =>
        if pr.2 ≠ "" then
          Option.some ⟨"url.path.segment", Option.some (PyValue.int (Int.ofNat pr.1)), PyValue.str pr.2⟩
        else Option.none,
       Option.none)
    else ([], Option.none)
  | _ => ([], Option.some "AttributeError: split expects str")

/-- The `url.query` / `url.fragment` branch of `parse_url.run`: `parse_qs`
the value, then one `url.query.pair` child per value of each key (the
source's `assert type(value) is list` always holds for `parse_qs` output).
A non-string value makes `parse_qs` raise. -/
def queryBranchCore (v : PyValue) : List Emit × Option String :=
  match v with
  | PyValue.str s =>
    ((parse_qs s).flatMap fun kv =>
      kv.2.map fun w => ⟨"url.query.pair", Option.some (PyValue.str kv.1), PyValue.str w⟩,
     Option.none)
  | _ => ([], Option.some "TypeError: parse_qs expects str")

/-- Continuation of the `url.authority` branch on the outcome of the
re-parse. -/
def authorityEmit : Except String ParseResult → List Emit × Option String
  | Except.error e => ([], Option.some e)
  | Except.ok p =>
    let users := match pyUsername p.netloc with
      | Option.some u =>
        if u ≠ "" then [⟨"url.username", Option.some (PyValue.str "Username"), PyValue.str u⟩] else []
      | Option.none => []
    let passes := match pyPassword p.netloc with
      | Option.some pw =>
        if pw ≠ "" then [⟨"url.password", Option.some (PyValue.str "Password"), PyValue.str pw⟩] else []
      | Option.none => []
    let hosts := [⟨"url.hostname", Option.some (PyValue.str "Host"), optStrVal (pyHostname p.netloc)⟩]
    match pyPort p.netloc with
    | Except.error e => (users ++ passes ++ hosts, Option.some e)
    | Except.ok op =>
      (users ++ passes ++ hosts ++
        (match op with
         | Option.some pt =>
           if pt ≠ 0 then [⟨"url.port", Option.some (PyValue.str "Port"), PyValue.int pt⟩] else []
         | Option.none => []),
       Option.none)

/-- The `url.authority` branch of `parse_url.run`: re-parse with a synthetic
`https://` prefix (the f-string stringifies any value), emit `url.username`
and `url.password` children when truthy (present and non-empty), always a
`url.hostname` child, then evaluate `.port` — which may raise `ValueError`
after the previous children were already enqueued — and emit a `url.port`
child when the port is truthy (nonzero). -/
def authorityBranchCore (v : PyValue) : List Emit × Option String :=
  authorityEmit (urlparse ("https://" ++ pyStr v))

/-- The fallback (`else`) branch of `parse_url.run`: non-strings are ignored;
otherwise try, in order: the embedded-URL recognition (one `url` child and
stop), the pipe-delimited pair grammar, the ampersand-delimited pair grammar;
emit nothing when none matches. -/
def fallbackBranchCore (v : PyValue) : List Emit × Option String :=
  match v with
  | PyValue.str s =>
    if urlFallbackHit s then ([⟨"url", Option.none, PyValue.str s⟩], Option.none)
    else if delimitedPairsMatch '|' s then emitPairPieces (pySplitChar '|' s)
    else if delimitedPairsMatch '&' s then emitPairPieces (pySplitChar '&' s)
    else ([], Option.none)
  | _ => ([], Option.none)

/-- Emission logic of `parsers/parse_url.py run(unfurl, node)` as a function
of `node.data_type` and `node.value` (every `add_to_queue` call there passes
`parent_id=node.node_id`, attached uniformly by `run_url` below): children in
emission order, plus the uncaught exception terminating the call, if any.
The dispatch mirrors the source conditional chain. -/
def urlChildrenCore (dt : String) (v : PyValue) : List Emit × Option String :=
  if dt = "url" then urlBranchCore v
  else if dt = "url.path" then pathBranchCore v
  else if dt = "url.query" ∨ dt = "url.fragment" then queryBranchCore v
  else if dt = "url.authority" then authorityBranchCore v
  else fallbackBranchCore v

/-- `parsers/parse_url.py run`: children enqueued (with `parent_id` set to the
node id) and the uncaught exception, if any. -/
def run_url (node : Node) : List Child × Option String :=
  let r := urlChildrenCore node.data_type node.value
  (r.1.map (Emit.withParent · node.node_id), r.2)

/-! ## parsers/parse_json.py: run -/

/-- The `url.query.pair` branch of `parse_json.run`: decode the value as
JSON; decode failure (`JSONDecodeError`) and a non-dict result (the
`AssertionError`) are caught and emit nothing; a dict yields one `json` child
per field in order. `json.loads` on a non-string raises `TypeError`,
uncaught. -/
def queryPairJsonCore (v : PyValue) : List Emit × Option String :=
  match v with
  | PyValue.str s =>
    match jsonLoads s with
    | Except.error _ => ([], Option.none)
    | Except.ok jv =>
      match jv with
      | PyValue.dict fields =>
        (fields.map fun kv => ⟨"json", Option.some (PyValue.str kv.1), kv.2⟩, Option.none)
      | _ => ([], Option.none)
  | _ => ([], Option.some "TypeError: the JSON object must be str")

/-- The `json` branch of `parse_json.run`: a string value is JSON-decoded
(kept as the string when decoding fails); when the resulting value is a dict,
emit one `json` child per field in order, else nothing. -/
def jsonBranchCore (v : PyValue) : List Emit × Option String :=
  let nv := match v with
    | PyValue.str s =>
      match jsonLoads s with
      | Except.ok jv => jv
      | Except.error _ => PyValue.str s
    | other => other
  match nv with
  | PyValue.dict fields =>
    (fields.map fun kv => ⟨"json", Option.some (PyValue.str kv.1), kv.2⟩, Option.none)
  | _ => ([], Option.none)

/-- Emission logic of `parsers/parse_json.py run(unfurl, node)` as a function
of `node.data_type` and `node.value`. -/
def jsonChildrenCore (dt : String) (v : PyValue) : List Emit × Option String :=
  if dt = "url.query.pair" then queryPairJsonCore v
  else if dt = "json" then jsonBranchCore v
  else ([], Option.none)

/-- `parsers/parse_json.py run`: children enqueued (with `parent_id` set to
the node id) and the uncaught exception, if any. -/
def run_json (node : Node) : List Child × Option String :=
  let r := jsonChildrenCore node.data_type node.value
  (r.1.map (Emit.withParent · node.node_id), r.2)

/-! ## Helper predicates and lemmas for the theorems -/

/-- Whether the child list contains a child of the given data type. -/
def emitsType (l : List Child) (t : String) : Bool :=
  l.any fun c => c.data_type == t

/-- The id-independent content of a child: data type, key and value. -/
def childKernel (c : Child) : String × Option PyValue × PyValue :=
  (c.data_type, c.key, c.value)

/-- The pipe/ampersand decomposition of a matching string into
`url.query.pair` children, one per separator-split piece. -/
def pairChildrenOf (sep : Char) (s : String) (id : Nat) : List Child :=
  (pySplitChar sep s).filterMap fun piece =>
    match pySplitChar '=' piece with
    | [k, w] => Option.some ⟨"url.query.pair", Option.some (PyValue.str k), PyValue.str w, id⟩
    | _ => Option.none

/-- When every piece is pair-shaped, the emission loop completes without the
unpacking `ValueError` and emits exactly one pair child per piece. -/
theorem emitPairPieces_of_all_ok (pieces : List String)
    (h : pieces.all pairPieceOk = true) :
    emitPairPieces pieces =
      (pieces.filterMap fun piece =>
        match pySplitChar '=' piece with
        | [k, w] =>
          Option.some (⟨"url.query.pair", Option.some (PyValue.str k), PyValue.str w⟩ : Emit)
        | _ => Option.none,
       Option.none) := by
  induction pieces with
  | nil => rfl
  | cons piece rest ih =>
    rw [List.all_cons, Bool.and_eq_true] at h
    obtain ⟨h1, h2⟩ := h
    unfold pairPieceOk at h1
    match hsp : pySplitChar '=' piece with
    | [] => rw [hsp] at h1; exact absurd h1 (by simp)
    | [k] => rw [hsp] at h1; exact absurd h1 (by simp)
    | [k, w] =>
      simp only [emitPairPieces, hsp, List.filterMap_cons, ih h2]
    | k :: w :: x :: t => rw [hsp] at h1; exact absurd h1 (by simp)

/-- Claim C10: a node of data_type `url` whose value parses with an empty
authority (netloc) — e.g. a scheme-only, relative, or authority-less URL —
produces no children at all, even when scheme, path, query or fragment are
present; the node becomes a leaf. -/
theorem url_empty_netloc_no_children (id : Nat) (s : String) (p : ParseResult)
    (hp : urlparse s = Except.ok p) (hn : p.netloc = "") :
    run_url ⟨"url", PyValue.str s, id⟩ = ([], Option.none) := by
  simp [run_url, urlChildrenCore, urlBranchCore, hp, hn]

/-- Witness for C10 at `file:///path`: scheme and path are present, the
authority is empty, and no child is emitted. -/
theorem url_empty_netloc_no_children_witness :
    urlparse "file:///path" =
      Except.ok ⟨"file", "", "/path", "", "", ""⟩ ∧
    run_url ⟨"url", PyValue.str "file:///path", 0⟩ = ([], Option.none) :=
  ⟨rfl, url_empty_netloc_no_children 0 "file:///path" ⟨"file", "", "/path", "", "", ""⟩ rfl rfl⟩

/-- Claim C4: a node of data_type `url.path` is split on `/`;
`url.path.segment` children are emitted only when the split has more than two
parts, empty segments are skipped, and each emitted child carries its
position in the split (the `enumerate` index) as its key. -/
theorem url_path_segment_children (id : Nat) (s : String) :
    (run_url ⟨"url.path", PyValue.str s, id⟩).2 = Option.none ∧
    ((pySplitChar '/' s).length ≤ 2 → (run_url ⟨"url.path", PyValue.str s, id⟩).1 = []) ∧
    (2 < (pySplitChar '/' s).length →
      (run_url ⟨"url.path", PyValue.str s, id⟩).1 =
        (pySplitChar '/' s).enum.filterMap fun pr =>
          if pr.2 ≠ "" then
            Option.some ⟨"url.path.segment", Option.some (PyValue.int (Int.ofNat pr.1)),
                         PyValue.str pr.2, id⟩
          else Option.none) := by
  have hrw : run_url ⟨"url.path", PyValue.str s, id⟩ =
      ((pathBranchCore (PyValue.str s)).1.map (Emit.withParent · id),
       (pathBranchCore (PyValue.str s)).2) := rfl
  by_cases h : 2 < (pySplitChar '/' s).length
  · refine ⟨?_, fun hle => absurd h (by omega), fun _ => ?_⟩
    · rw [hrw]; simp [pathBranchCore, h]
    · rw [hrw]
      simp only [pathBranchCore, h, if_true, List.map_filterMap]
      refine List.filterMap_congr fun pr _ => ?_
      by_cases hp : pr.2 = "" <;> simp [hp, Emit.withParent]
  · refine ⟨?_, fun _ => ?_, fun hlt => absurd hlt h⟩ <;>
      (rw [hrw]; simp [pathBranchCore, h])

/-- Witness for C4 at the path `/a//b`: the split has four parts, and exactly
the segment children `a` (position 1) and `b` (position 3) are emitted, the
empty segments being skipped. -/
theorem url_path_segment_children_witness :
    2 < (pySplitChar '/' "/a//b").length ∧
    (run_url ⟨"url.path", PyValue.str "/a//b", 0⟩).1 =
      [⟨"url.path.segment", Option.some (PyValue.int 1), PyValue.str "a", 0⟩,
       ⟨"url.path.segment", Option.some (PyValue.int 3), PyValue.str "b", 0⟩] := by
  refine ⟨by decide, ?_⟩
  rw [(url_path_segment_children 0 "/a//b").2.2 (by decide)]
  rfl

/-- Claim C3: a node of data_type `url.query` or `url.fragment` has its value
parsed as a form-encoded query string; each decoded key yields one
`url.query.pair` child per value, multi-valued keys producing one sibling
child per value with the same key, in order. -/
theorem url_query_pair_children (id : Nat) (dt : String) (s : String)
    (hdt : dt = "url.query" ∨ dt = "url.fragment") :
    run_url ⟨dt, PyValue.str s, id⟩ =
      ((parse_qs s).flatMap fun kv =>
         kv.2.map fun w =>
           (⟨"url.query.pair", Option.some (PyValue.str kv.1), PyValue.str w, id⟩ : Child),
       Option.none) := by
  have hcore : urlChildrenCore dt (PyValue.str s) = queryBranchCore (PyValue.str s) := by
    rcases hdt with h | h <;> subst h <;> rfl
  show ((urlChildrenCore dt (PyValue.str s)).1.map (Emit.withParent · id),
        (urlChildrenCore dt (PyValue.str s)).2) = _
  rw [hcore]
  simp only [queryBranchCore, List.map_flatMap, List.map_map]
  rfl

/-- Witness for C3 at the value `x=1&x=2` (the claim's example): two sibling
`url.query.pair` children, both keyed `x`, with values `1` and `2`. -/
theorem url_query_pair_children_witness :
    run_url ⟨"url.query", PyValue.str "x=1&x=2", 5⟩ =
      ([⟨"url.query.pair", Option.some (PyValue.str "x"), PyValue.str "1", 5⟩,
        ⟨"url.query.pair", Option.some (PyValue.str "x"), PyValue.str "2", 5⟩],
       Option.none) := by
  rw [url_query_pair_children 5 "url.query" "x=1&x=2" (Or.inl rfl)]
  rfl

/-- Characterization of the `url` branch on a successfully parsed value with
non-empty netloc: the emitted children are the concatenation of the five
conditional groups, and no exception escapes. -/
theorem urlBranchCore_of_ok (s : String) (p : ParseResult)
    (hp : urlparse s = Except.ok p) (hn : p.netloc ≠ "") :
    urlBranchCore (PyValue.str s) =
      ((if p.scheme ≠ "" then
          [⟨"url.scheme", Option.some (PyValue.str "Scheme"), PyValue.str p.scheme⟩]
        else [])
       ++ (if Option.some p.netloc = pyHostname p.netloc then
            [(⟨"url.hostname", Option.none, optStrVal (pyHostname p.netloc)⟩ : Emit)]
          else
            [⟨"url.authority", Option.none, PyValue.str p.netloc⟩])
       ++ (if p.path ≠ "" then [⟨"url.path", Option.none, PyValue.str p.path⟩] else [])
       ++ (if p.query ≠ "" then [⟨"url.query", Option.none, PyValue.str p.query⟩] else [])
       ++ (if p.fragment ≠ "" then [⟨"url.fragment", Option.none, PyValue.str p.fragment⟩] else []),
       Option.none) := by
  simp only [urlBranchCore, hp]
  rw [if_pos hn]

/-- Claim C1: a node of data_type `url` whose value parses with a non-empty
authority (netloc) emits a `url.scheme` child iff the scheme is present; a
`url.hostname` child when the netloc equals the bare hostname and otherwise a
`url.authority` child carrying the raw netloc; and `url.path`, `url.query`,
`url.fragment` children iff the respective component is non-empty. -/
theorem url_node_children (id : Nat) (s : String) (p : ParseResult)
    (hp : urlparse s = Except.ok p) (hn : p.netloc ≠ "") :
    (run_url ⟨"url", PyValue.str s, id⟩).2 = Option.none ∧
    (emitsType (run_url ⟨"url", PyValue.str s, id⟩).1 "url.scheme" = true ↔ p.scheme ≠ "") ∧
    (Option.some p.netloc = pyHostname p.netloc →
      emitsType (run_url ⟨"url", PyValue.str s, id⟩).1 "url.hostname" = true ∧
      emitsType (run_url ⟨"url", PyValue.str s, id⟩).1 "url.authority" = false) ∧
    (Option.some p.netloc ≠ pyHostname p.netloc →
      emitsType (run_url ⟨"url", PyValue.str s, id⟩).1 "url.hostname" = false ∧
      (⟨"url.authority", Option.none, PyValue.str p.netloc, id⟩ : Child) ∈
        (run_url ⟨"url", PyValue.str s, id⟩).1) ∧
    (emitsType (run_url ⟨"url", PyValue.str s, id⟩).1 "url.path" = true ↔ p.path ≠ "") ∧
    (emitsType (run_url ⟨"url", PyValue.str s, id⟩).1 "url.query" = true ↔ p.query ≠ "") ∧
    (emitsType (run_url ⟨"url", PyValue.str s, id⟩).1 "url.fragment" = true ↔ p.fragment ≠ "") := by
  have hrw : run_url ⟨"url", PyValue.str s, id⟩ =
      ((urlBranchCore (PyValue.str s)).1.map (Emit.withParent · id),
       (urlBranchCore (PyValue.str s)).2) := rfl
  rw [hrw, urlBranchCore_of_ok s p hp hn]
  by_cases h1 : p.scheme = "" <;>
    by_cases h2 : Option.some p.netloc = pyHostname p.netloc <;>
    by_cases h3 : p.path = "" <;>
    by_cases h4 : p.query = "" <;>
    by_cases h5 : p.fragment = "" <;>
    simp [h1, h2, h3, h4, h5, emitsType, Emit.withParent, List.any_append]

/-- Witness for C1 at `https://example.com/p?q=r#f`: the netloc equals the
bare hostname, so a scheme child and a hostname child are emitted and no
authority child is. -/
theorem url_node_children_witness :
    urlparse "https://example.com/p?q=r#f" =
      Except.ok ⟨"https", "example.com", "/p", "", "q=r", "f"⟩ ∧
    emitsType (run_url ⟨"url", PyValue.str "https://example.com/p?q=r#f", 1⟩).1 "url.scheme" = true ∧
    emitsType (run_url ⟨"url", PyValue.str "https://example.com/p?q=r#f", 1⟩).1 "url.hostname" = true ∧
    emitsType (run_url ⟨"url", PyValue.str "https://example.com/p?q=r#f", 1⟩).1 "url.authority" = false := by
  have h := url_node_children 1 "https://example.com/p?q=r#f"
    ⟨"https", "example.com", "/p", "", "q=r", "f"⟩ rfl (by decide)
  exact ⟨rfl, h.2.1.mpr (by decide), (h.2.2.1 (by decide)).1, (h.2.2.1 (by decide)).2⟩

/-- Attaching the parent id to the emitted pairs of the delimited-pair loop
commutes with building the pair children directly. -/
theorem mapWithParent_pairPieces (pieces : List String) (id : Nat) :
    (pieces.filterMap fun piece =>
       match pySplitChar '=' piece with
       | [k, w] =>
         Option.some (⟨"url.query.pair", Option.some (PyValue.str k), PyValue.str w⟩ : Emit)
       | _ => Option.none).map (Emit.withParent · id) =
    pieces.filterMap fun piece =>
       match pySplitChar '=' piece with
       | [k, w] =>
         Option.some (⟨"url.query.pair", Option.some (PyValue.str k), PyValue.str w, id⟩ : Child)
       | _ => Option.none := by
  rw [List.map_filterMap]
  refine List.filterMap_congr fun piece _ => ?_
  rcases pySplitChar '=' piece with _ | ⟨k, _ | ⟨w, _ | ⟨x, t⟩⟩⟩ <;> simp [Emit.withParent]

/-- Claim C2: a node of a fallback (otherwise-unhandled) data_type with a
string value tries, in order: the embedded-URL grammar (non-empty authority
and non-empty path; on success exactly one `url` child carrying the same
string and nothing else), the pipe-delimited pair grammar, the
ampersand-delimited pair grammar, short-circuiting at the first match — so a
string matching both delimited grammars yields the pipe decomposition. -/
theorem fallback_children (id : Nat) (dt : String) (s : String)
    (hdt : dt ≠ "url" ∧ dt ≠ "url.path" ∧ dt ≠ "url.query" ∧ dt ≠ "url.fragment" ∧
           dt ≠ "url.authority") :
    (∀ p, urlparse s = Except.ok p → p.netloc ≠ "" → p.path ≠ "" →
       run_url ⟨dt, PyValue.str s, id⟩ =
         ([⟨"url", Option.none, PyValue.str s, id⟩], Option.none)) ∧
    (urlFallbackHit s = false → delimitedPairsMatch '|' s = true →
       run_url ⟨dt, PyValue.str s, id⟩ = (pairChildrenOf '|' s id, Option.none)) ∧
    (urlFallbackHit s = false → delimitedPairsMatch '|' s = false →
     delimitedPairsMatch '&' s = true →
       run_url ⟨dt, PyValue.str s, id⟩ = (pairChildrenOf '&' s id, Option.none)) ∧
    (urlFallbackHit s = false → delimitedPairsMatch '|' s = false →
     delimitedPairsMatch '&' s = false →
       run_url ⟨dt, PyValue.str s, id⟩ = ([], Option.none)) := by
  obtain ⟨hd1, hd2, hd3, hd4, hd5⟩ := hdt
  have hrw : run_url ⟨dt, PyValue.str s, id⟩ =
      ((fallbackBranchCore (PyValue.str s)).1.map (Emit.withParent · id),
       (fallbackBranchCore (PyValue.str s)).2) := by
    show ((urlChildrenCore dt (PyValue.str s)).1.map (Emit.withParent · id),
          (urlChildrenCore dt (PyValue.str s)).2) = _
    rw [show urlChildrenCore dt (PyValue.str s) = fallbackBranchCore (PyValue.str s) by
      simp [urlChildrenCore, hd1, hd2, hd3, hd4, hd5]]
  refine ⟨?_, ?_, ?_, ?_⟩
  · intro p hp hn hpath
    have hhit : urlFallbackHit s = true := by simp [urlFallbackHit, hp, hn, hpath]
    rw [hrw]
    simp [fallbackBranchCore, hhit, Emit.withParent]
  · intro hhit hpipe
    have hall : (pySplitChar '|' s).all pairPieceOk = true := by
      have h := hpipe
      simp only [delimitedPairsMatch, Bool.and_eq_true] at h
      exact h.2
    rw [hrw]
    simp only [fallbackBranchCore, hhit, Bool.false_eq_true, if_false, hpipe, if_true,
               emitPairPieces_of_all_ok _ hall]
    exact congrArg (·, Option.none) (mapWithParent_pairPieces _ id)
  · intro hhit hpipe hamp
    have hall : (pySplitChar '&' s).all pairPieceOk = true := by
      have h := hamp
      simp only [delimitedPairsMatch, Bool.and_eq_true] at h
      exact h.2
    rw [hrw]
    simp only [fallbackBranchCore, hhit, hpipe, Bool.false_eq_true, if_false, hamp, if_true,
               emitPairPieces_of_all_ok _ hall]
    exact congrArg (·, Option.none) (mapWithParent_pairPieces _ id)
  · intro hhit hpipe hamp
    rw [hrw]
    simp [fallbackBranchCore, hhit, hpipe, hamp]

/-- Witness for C2 at the string `a=b&c|d=e` on a `raw` node: the string
matches both the pipe and the ampersand grammar, the embedded-URL check
fails, and the emitted children are exactly the pipe-grammar decomposition. -/
theorem fallback_children_witness :
    delimitedPairsMatch '|' "a=b&c|d=e" = true ∧
    delimitedPairsMatch '&' "a=b&c|d=e" = true ∧
    run_url ⟨"raw", PyValue.str "a=b&c|d=e", 9⟩ =
      ([⟨"url.query.pair", Option.some (PyValue.str "a"), PyValue.str "b&c", 9⟩,
        ⟨"url.query.pair", Option.some (PyValue.str "d"), PyValue.str "e", 9⟩],
       Option.none) := by
  refine ⟨rfl, rfl, ?_⟩
  rw [(fallback_children 9 "raw" "a=b&c|d=e"
    ⟨by decide, by decide, by decide, by decide, by decide⟩).2.1 rfl rfl]
  rfl

/-- Counterexample to C5 as stated: for a `url.authority` node with value
`host:0` the port is present — the `.port` property yields the integer 0 —
yet no `url.port` child is emitted, because the source guards the emission
with Python truthiness (`if parsed_authority.port:`) and `0` is falsy. -/
theorem authority_port_zero_counterexample :
    pyPort "host:0" = Except.ok (Option.some 0) ∧
    run_url ⟨"url.authority", PyValue.str "host:0", 0⟩ =
      ([⟨"url.hostname", Option.some (PyValue.str "Host"), PyValue.str "host", 0⟩],
       Option.none) ∧
    emitsType (run_url ⟨"url.authority", PyValue.str "host:0", 0⟩).1 "url.port" = false ∧
    ¬ (emitsType (run_url ⟨"url.authority", PyValue.str "host:0", 0⟩).1 "url.port" = true ↔
        (∃ pt, pyPort "host:0" = Except.ok (Option.some pt))) :=
  ⟨rfl, rfl, rfl, fun hiff => by
    have : emitsType (run_url ⟨"url.authority", PyValue.str "host:0", 0⟩).1 "url.port" = true :=
      hiff.mpr ⟨0, rfl⟩
    exact Bool.false_ne_true (rfl.symm.trans this)⟩

/-- Claim C5 as amended: for a `url.authority` node (string value, successful
re-parse after prefixing the synthetic scheme), `url.username` and
`url.password` children are emitted exactly when those subcomponents are
present and non-empty, a `url.hostname` child is always emitted, and a
`url.port` child is emitted exactly when the port is present and nonzero, its
value being the port integer. -/
theorem authority_children (id : Nat) (s : String) (p : ParseResult)
    (hp : urlparse ("https://" ++ s) = Except.ok p) :
    (∀ u, pyUsername p.netloc = Option.some u → u ≠ "" →
       (⟨"url.username", Option.some (PyValue.str "Username"), PyValue.str u, id⟩ : Child) ∈
         (run_url ⟨"url.authority", PyValue.str s, id⟩).1) ∧
    ((pyUsername p.netloc = Option.none ∨ pyUsername p.netloc = Option.some "") →
       emitsType (run_url ⟨"url.authority", PyValue.str s, id⟩).1 "url.username" = false) ∧
    (∀ pw, pyPassword p.netloc = Option.some pw → pw ≠ "" →
       (⟨"url.password", Option.some (PyValue.str "Password"), PyValue.str pw, id⟩ : Child) ∈
         (run_url ⟨"url.authority", PyValue.str s, id⟩).1) ∧
    ((pyPassword p.netloc = Option.none ∨ pyPassword p.netloc = Option.some "") →
       emitsType (run_url ⟨"url.authority", PyValue.str s, id⟩).1 "url.password" = false) ∧
    emitsType (run_url ⟨"url.authority", PyValue.str s, id⟩).1 "url.hostname" = true ∧
    (∀ pt, pyPort p.netloc = Except.ok (Option.some pt) → pt ≠ 0 →
       (⟨"url.port", Option.some (PyValue.str "Port"), PyValue.int pt, id⟩ : Child) ∈
         (run_url ⟨"url.authority", PyValue.str s, id⟩).1) ∧
    ((pyPort p.netloc = Except.ok Option.none ∨ pyPort p.netloc = Except.ok (Option.some 0) ∨
      (∃ e, pyPort p.netloc = Except.error e)) →
       emitsType (run_url ⟨"url.authority", PyValue.str s, id⟩).1 "url.port" = false) := by
  have hab : authorityBranchCore (PyValue.str s) = authorityEmit (Except.ok p) := by
    simp only [authorityBranchCore, pyStr, hp]
  have hmain : run_url ⟨"url.authority", PyValue.str s, id⟩ =
      ((authorityEmit (Except.ok p)).1.map (Emit.withParent · id),
       (authorityEmit (Except.ok p)).2) := by
    simp only [run_url]
    rw [show urlChildrenCore "url.authority" (PyValue.str s) =
          authorityBranchCore (PyValue.str s) by simp [urlChildrenCore], hab]
  refine ⟨?_, ?_, ?_, ?_, ?_, ?_, ?_⟩
  · intro u hU hu
    rw [hmain]
    simp only [authorityEmit, hU]
    rcases hPort : pyPort p.netloc with e | op <;>
      simp [hu, Emit.withParent]
  · intro h
    rw [hmain]
    simp only [authorityEmit]
    rcases h with h | h <;>
      rcases hP : pyPassword p.netloc with _ | pw <;>
      rcases hPort : pyPort p.netloc with e | _ | pt <;>
      simp [h, emitsType, Emit.withParent, List.any_append]
  · intro pw hP hpw
    rw [hmain]
    simp only [authorityEmit, hP]
    rcases hPort : pyPort p.netloc with e | op <;>
      simp [hpw, Emit.withParent]
  · intro h
    rw [hmain]
    simp only [authorityEmit]
    rcases h with h | h <;>
      rcases hU : pyUsername p.netloc with _ | u <;>
      rcases hPort : pyPort p.netloc with e | _ | pt <;>
      simp [h, emitsType, Emit.withParent, List.any_append]
  · rw [hmain]
    simp only [authorityEmit]
    rcases hPort : pyPort p.netloc with e | op <;>
      simp [emitsType, Emit.withParent, List.any_append]
  · intro pt hPort hpt
    rw [hmain]
    simp only [authorityEmit, hPort]
    simp [hpt, Emit.withParent]
  · intro h
    rw [hmain]
    simp only [authorityEmit]
    rcases h with h | h | ⟨e, h⟩ <;>
      rcases hU : pyUsername p.netloc with _ | u <;>
      rcases hP : pyPassword p.netloc with _ | pw <;>
      simp [h, emitsType, Emit.withParent, List.any_append]

/-- Witness for C5 (amended) at the authority `user:pw@host.example:8080`:
username, password, hostname and port children are all emitted, the port
child carrying the integer 8080. -/
theorem authority_children_witness :
    urlparse ("https://" ++ "user:pw@host.example:8080") =
      Except.ok ⟨"https", "user:pw@host.example:8080", "", "", "", ""⟩ ∧
    (⟨"url.username", Option.some (PyValue.str "Username"), PyValue.str "user", 4⟩ : Child) ∈
      (run_url ⟨"url.authority", PyValue.str "user:pw@host.example:8080", 4⟩).1 ∧
    (⟨"url.password", Option.some (PyValue.str "Password"), PyValue.str "pw", 4⟩ : Child) ∈
      (run_url ⟨"url.authority", PyValue.str "user:pw@host.example:8080", 4⟩).1 ∧
    emitsType (run_url ⟨"url.authority", PyValue.str "user:pw@host.example:8080", 4⟩).1
      "url.hostname" = true ∧
    (⟨"url.port", Option.some (PyValue.str "Port"), PyValue.int 8080, 4⟩ : Child) ∈
      (run_url ⟨"url.authority", PyValue.str "user:pw@host.example:8080", 4⟩).1 := by
  have h := authority_children 4 "user:pw@host.example:8080"
    ⟨"https", "user:pw@host.example:8080", "", "", "", ""⟩ rfl
  exact ⟨rfl, h.1 "user" rfl (by decide), h.2.2.1 "pw" rfl (by decide),
         h.2.2.2.2.1, h.2.2.2.2.2.1 8080 rfl (by decide)⟩

/-- Claim C6: a `url.query.pair` node's value is decoded as JSON, and one
`json` child per object field (field name as key, field value as value) is
emitted iff the decode succeeds and yields an object; a decode failure or a
non-object result emits no children. -/
theorem query_pair_json_children (id : Nat) (s : String) :
    (run_json ⟨"url.query.pair", PyValue.str s, id⟩).2 = Option.none ∧
    (∀ fields, jsonLoads s = Except.ok (PyValue.dict fields) →
      (run_json ⟨"url.query.pair", PyValue.str s, id⟩).1 =
        fields.map fun kv => ⟨"json", Option.some (PyValue.str kv.1), kv.2, id⟩) ∧
    (∀ jv, jsonLoads s = Except.ok jv → (∀ fields, jv ≠ PyValue.dict fields) →
      (run_json ⟨"url.query.pair", PyValue.str s, id⟩).1 = []) ∧
    (∀ e, jsonLoads s = Except.error e →
      (run_json ⟨"url.query.pair", PyValue.str s, id⟩).1 = []) := by
  have hrw : run_json ⟨"url.query.pair", PyValue.str s, id⟩ =
      ((queryPairJsonCore (PyValue.str s)).1.map (Emit.withParent · id),
       (queryPairJsonCore (PyValue.str s)).2) := rfl
  refine ⟨?_, ?_, ?_, ?_⟩
  · rw [hrw]
    rcases hJ : jsonLoads s with e | jv
    · simp [queryPairJsonCore, hJ]
    · cases jv <;> simp [queryPairJsonCore, hJ]
  · intro fields hJ
    rw [hrw]
    simp [queryPairJsonCore, hJ, List.map_map, Emit.withParent, Function.comp]
  · intro jv hJ hnd
    rw [hrw]
    cases jv <;> first
      | exact absurd rfl (hnd _)
      | simp [queryPairJsonCore, hJ]
  · intro e hJ
    rw [hrw]
    simp [queryPairJsonCore, hJ]

/-- Witness for C6 at the claim's examples `42` and `true`: both decode
successfully to non-objects and yield no `json` child. -/
theorem query_pair_json_children_witness :
    jsonLoads "42" = Except.ok (PyValue.int 42) ∧
    jsonLoads "true" = Except.ok (PyValue.bool true) ∧
    (run_json ⟨"url.query.pair", PyValue.str "42", 2⟩).1 = [] ∧
    (run_json ⟨"url.query.pair", PyValue.str "true", 2⟩).1 = [] := by
  refine ⟨rfl, rfl, ?_, ?_⟩
  · exact (query_pair_json_children 2 "42").2.2.1 (PyValue.int 42) rfl
      (fun fields h => PyValue.noConfusion h)
  · exact (query_pair_json_children 2 "true").2.2.1 (PyValue.bool true) rfl
      (fun fields h => PyValue.noConfusion h)

/-- Claim C7: for a JSON object text, a `url.query.pair` node carrying the
text produces exactly the same children (data type, key, value, order) as a
`json` node carrying the decoded mapping. -/
theorem json_double_decode (id : Nat) (s : String) (fields : List (String × PyValue))
    (h : jsonLoads s = Except.ok (PyValue.dict fields)) :
    run_json ⟨"url.query.pair", PyValue.str s, id⟩ =
      run_json ⟨"json", PyValue.dict fields, id⟩ := by
  simp [run_json, jsonChildrenCore, queryPairJsonCore, jsonBranchCore, h]

/-- Witness for C7 at the claim's example: the text form of the object
mapping `a` to 1 and `b` to `c` produces exactly the two `json` children of
the decoded mapping. -/
theorem json_double_decode_witness :
    jsonLoads "\x7b\"a\":1,\"b\":\"c\"\x7d" =
      Except.ok (PyValue.dict [("a", PyValue.int 1), ("b", PyValue.str "c")]) ∧
    run_json ⟨"url.query.pair", PyValue.str "\x7b\"a\":1,\"b\":\"c\"\x7d", 6⟩ =
      run_json ⟨"json", PyValue.dict [("a", PyValue.int 1), ("b", PyValue.str "c")], 6⟩ ∧
    (run_json ⟨"url.query.pair", PyValue.str "\x7b\"a\":1,\"b\":\"c\"\x7d", 6⟩).1 =
      [⟨"json", Option.some (PyValue.str "a"), PyValue.int 1, 6⟩,
       ⟨"json", Option.some (PyValue.str "b"), PyValue.str "c", 6⟩] :=
  ⟨rfl,
   json_double_decode 6 "\x7b\"a\":1,\"b\":\"c\"\x7d"
     [("a", PyValue.int 1), ("b", PyValue.str "c")] rfl,
   rfl⟩

/-- The `url.path` branch never raises on a string value. -/
theorem pathBranchCore_str_noerr (s : String) :
    (pathBranchCore (PyValue.str s)).2 = Option.none := by
  by_cases h : 2 < (pySplitChar '/' s).length <;> simp [pathBranchCore, h]

/-- The fallback branch never raises on a string value: the URL re-check is
inside a bare `try`, and a full delimited-pair grammar match guarantees every
piece unpacks into exactly two parts. -/
theorem fallbackBranchCore_str_noerr (s : String) :
    (fallbackBranchCore (PyValue.str s)).2 = Option.none := by
  unfold fallbackBranchCore
  by_cases h1 : urlFallbackHit s
  · simp [h1]
  · by_cases h2 : delimitedPairsMatch '|' s
    · have hall : (pySplitChar '|' s).all pairPieceOk = true := by
        have h := h2
        simp only [delimitedPairsMatch, Bool.and_eq_true] at h
        exact h.2
      simp [h1, h2, emitPairPieces_of_all_ok _ hall]
    · by_cases h3 : delimitedPairsMatch '&' s
      · have hall : (pySplitChar '&' s).all pairPieceOk = true := by
          have h := h3
          simp only [delimitedPairsMatch, Bool.and_eq_true] at h
          exact h.2
        simp [h1, h2, h3, emitPairPieces_of_all_ok _ hall]
      · simp [h1, h2, h3]

/-- The `url.query.pair` branch of the JSON extractor never raises on a
string value: decode failure and the non-dict assertion are both caught. -/
theorem queryPairJsonCore_str_noerr (s : String) :
    (queryPairJsonCore (PyValue.str s)).2 = Option.none := by
  unfold queryPairJsonCore
  rcases hJ : jsonLoads s with e | jv
  · simp [hJ]
  · cases jv <;> simp [hJ]

/-- The `json` branch of the JSON extractor never raises, whatever the value. -/
theorem jsonBranchCore_noerr (v : PyValue) :
    (jsonBranchCore v).2 = Option.none := by
  unfold jsonBranchCore
  cases v <;> try rfl
  case str s =>
    rcases hJ : jsonLoads s with e | jv
    · simp [hJ]
    · cases jv <;> simp [hJ]

/-- Counterexample to C8 as stated: a `url.authority` node with value
`host:abc` makes the URL extractor evaluate `parsed_authority.port`, which
raises an uncaught `ValueError` (after the hostname child was already
enqueued), so `run` does not return normally for every node. -/
theorem run_url_uncaught_exception_counterexample :
    (run_url ⟨"url.authority", PyValue.str "host:abc", 0⟩).2 =
      Option.some "ValueError: Port could not be cast to integer value" ∧
    (run_url ⟨"url.authority", PyValue.str "host:abc", 0⟩).2 ≠ Option.none :=
  ⟨rfl, by decide⟩

/-- Claim C8 as amended: for every node with a string value whose data_type
is neither `url` nor `url.authority` (the two branches that evaluate
`urlparse` bracket validation or the `.port` property outside any handler),
both extractors return normally: every decode/parse error is caught locally
and the node or malformed sub-part is silently skipped. -/
theorem runs_return_normally (n : Node) (s : String) (hv : n.value = PyValue.str s)
    (h1 : n.data_type ≠ "url") (h2 : n.data_type ≠ "url.authority") :
    (run_url n).2 = Option.none ∧ (run_json n).2 = Option.none := by
  obtain ⟨dt, v, id⟩ := n
  have hv2 : v = PyValue.str s := hv
  have h1x : dt ≠ "url" := h1
  have h2x : dt ≠ "url.authority" := h2
  subst hv2
  constructor
  · show (urlChildrenCore dt (PyValue.str s)).2 = Option.none
    unfold urlChildrenCore
    rw [if_neg h1x]
    by_cases hq : dt = "url.path"
    · rw [if_pos hq]
      exact pathBranchCore_str_noerr s
    · rw [if_neg hq]
      by_cases hqf : dt = "url.query" ∨ dt = "url.fragment"
      · rw [if_pos hqf]
        rfl
      · rw [if_neg hqf, if_neg h2x]
        exact fallbackBranchCore_str_noerr s
  · show (jsonChildrenCore dt (PyValue.str s)).2 = Option.none
    unfold jsonChildrenCore
    by_cases hqp : dt = "url.query.pair"
    · rw [if_pos hqp]
      exact queryPairJsonCore_str_noerr s
    · rw [if_neg hqp]
      by_cases hj : dt = "json"
      · rw [if_pos hj]
        exact jsonBranchCore_noerr (PyValue.str s)
      · rw [if_neg hj]

/-- Witness for C8 (amended) at a `raw` node with an unparseable value: both
extractors return normally. -/
theorem runs_return_normally_witness :
    (run_url ⟨"raw", PyValue.str "nonsense", 3⟩).2 = Option.none ∧
    (run_json ⟨"raw", PyValue.str "nonsense", 3⟩).2 = Option.none :=
  runs_return_normally ⟨"raw", PyValue.str "nonsense", 3⟩ "nonsense" rfl
    (by decide) (by decide)

/-- Claim C9: both extractors are deterministic functions of the node's
data_type and value: two nodes agreeing on those receive the same children
(same count, order, data type, key and value) and the same exception
outcome, whatever their ids. -/
theorem runs_deterministic (n₁ n₂ : Node)
    (hdt : n₁.data_type = n₂.data_type) (hv : n₁.value = n₂.value) :
    (run_url n₁).1.map childKernel = (run_url n₂).1.map childKernel ∧
    (run_url n₁).2 = (run_url n₂).2 ∧
    (run_json n₁).1.map childKernel = (run_json n₂).1.map childKernel ∧
    (run_json n₁).2 = (run_json n₂).2 := by
  obtain ⟨d1, v1, i1⟩ := n₁
  obtain ⟨d2, v2, i2⟩ := n₂
  have hd : d1 = d2 := hdt
  have hv2 : v1 = v2 := hv
  subst hd
  subst hv2
  refine ⟨?_, rfl, ?_, rfl⟩ <;>
    simp [run_url, run_json, List.map_map, childKernel, Emit.withParent, Function.comp]

/-- Witness for C9: two `url.query` nodes with the same value but different
ids emit identical child content in identical order. -/
theorem runs_deterministic_witness :
    (run_url ⟨"url.query", PyValue.str "x=1&x=2", 1⟩).1.map childKernel =
      (run_url ⟨"url.query", PyValue.str "x=1&x=2", 2⟩).1.map childKernel ∧
    (run_url ⟨"url.query", PyValue.str "x=1&x=2", 1⟩).2 =
      (run_url ⟨"url.query", PyValue.str "x=1&x=2", 2⟩).2 ∧
    (run_json ⟨"url.query", PyValue.str "x=1&x=2", 1⟩).1.map childKernel =
      (run_json ⟨"url.query", PyValue.str "x=1&x=2", 2⟩).1.map childKernel ∧
    (run_json ⟨"url.query", PyValue.str "x=1&x=2", 1⟩).2 =
      (run_json ⟨"url.query", PyValue.str "x=1&x=2", 2⟩).2 :=
  runs_deterministic ⟨"url.query", PyValue.str "x=1&x=2", 1⟩
    ⟨"url.query", PyValue.str "x=1&x=2", 2⟩ rfl rfl
